import Mathlib

/-!
Verification of the streak/badge/points gamification engine
(the stateful core of the wellness-backend repository).

The engine is a set of Express route handlers over four process-local
arrays (`userStreaks`, `userBadges`, `rewardHistory`, `dailyHabits`).
We embed the data model and every operation the claims touch as plain
Lean functions over an explicit `EngineState`, staying as close as
possible to the JavaScript source: object property access on the streak
maps is modelled with an insertion-ordered association list (`JSObj`)
whose values are numbers, NaN, or undefined (`JSVal`), because the
source distinguishes these through truthiness and comparisons; calendar
days (`YYYY-MM-DD` strings compared for equality, with "yesterday" one
day before "today") are modelled as integers, the clock being an
injected parameter; `uuid` ids and ISO timestamps are omitted since no
operation of the engine ever reads them back.
-/

set_option maxHeartbeats 1600000
set_option linter.unusedVariables false

deriving instance DecidableEq for Except

/-- Model of a JavaScript numeric-or-missing value as it flows through the
streak counters: an ordinary number, NaN, or undefined (absent object key). -/
inductive JSVal where
  | num (n : Int)
  | nan
  | undefined
deriving DecidableEq, Repr

/-- JavaScript `x + 1`: `undefined + 1` and `NaN + 1` both evaluate to NaN. -/
def jsAdd1 : JSVal → JSVal
  | .num n => .num (n + 1)
  | _ => .nan

/-- JavaScript `a > b`: false unless both operands are ordinary numbers. -/
def jsGt : JSVal → JSVal → Bool
  | .num a, .num b => decide (b < a)
  | _, _ => false

/-- JavaScript `a >= b`: false unless both operands are ordinary numbers. -/
def jsGe : JSVal → JSVal → Bool
  | .num a, .num b => decide (b ≤ a)
  | _, _ => false

/-- JavaScript object with JSVal-valued properties, as an insertion-ordered
association list: string keys in first-assignment order, as `Object.entries`
iterates them for the non-index keys used here. -/
abbrev JSObj := List (String × JSVal)

/-- Property read `o[k]`: undefined when the key is absent. -/
def objGet (o : JSObj) (k : String) : JSVal :=
  match o.find? (fun kv => kv.1 == k) with
  | some kv => kv.2
  | none => .undefined

/-- Property write `o[k] = v`: overwrites the key in place when present,
otherwise appends it at the end (JavaScript keeps insertion order for
string keys; object keys are unique, so updating the first occurrence is
updating the occurrence). -/
def objSet (o : JSObj) (k : String) (v : JSVal) : JSObj :=
  match o with
  | [] => [(k, v)]
  | kv :: rest => if kv.1 == k then (k, v) :: rest else kv :: objSet rest k v

/-- One `dailyHabits` record: a single (user, activity type, calendar day)
submission.  The `id` (uuid), `metrics` payload and `loggedAt` timestamp of
the source record are omitted: the engine never reads them back. -/
structure ActivityLog where
  userId : String
  activityType : String
  date : Int
  completed : Bool
deriving DecidableEq, Repr

/-- One `userStreaks` record (the per-user mutable aggregate).  The
`lastUpdated` timestamp is omitted (never read back). -/
structure UserStreak where
  userId : String
  streaks : JSObj
  longestStreaks : JSObj
deriving DecidableEq, Repr

/-- One `userBadges` record.  `badgeName`/`badgeDescription` are omitted;
`points` is kept as a JSVal because the source stores `undefined` there
(see `awardBadge`). -/
structure UserBadge where
  userId : String
  badgeId : String
  points : JSVal
deriving DecidableEq, Repr

/-- One `rewardHistory` record.  Activity-point entries carry
`activityType` and `points`; redemption entries carry `pointsUsed` and no
`points` field at all (hence `Option Int`). -/
structure RewardEntry where
  userId : String
  activityType : Option String
  points : Option Int
  pointsUsed : Option Int
deriving DecidableEq, Repr

/-- The four process-local arrays of the module. -/
structure EngineState where
  userStreaks : List UserStreak
  userBadges : List UserBadge
  rewardHistory : List RewardEntry
  dailyHabits : List ActivityLog
deriving DecidableEq, Repr

/-- All four arrays start empty. -/
def initialState : EngineState := ⟨[], [], [], []⟩

/-- Badge catalog `BADGES`, flattened to (badgeId, catalog point value):
the four categories with three entries each, in source order.  Display
names and descriptions are omitted (the engine logic never branches on
them, and `awardBadge` never actually reads any field of the catalog
entry, see its doc comment). -/
def BADGES : List (String × Int) :=
  [("7-day-streak", 50), ("30-day-streak", 200), ("90-day-streak", 500),
   ("healthy-eating", 75), ("supplement-consistency", 100), ("hydration", 60),
   ("workout-consistency", 80), ("step-master", 70), ("active-lifestyle", 150),
   ("first-week", 25), ("first-month", 100), ("weight-goal", 200)]

/-- initializeUserStreak: a fresh record with the five pre-populated
counters, all zero. -/
def initializeUserStreak (userId : String) : UserStreak :=
  { userId := userId,
    streaks := [("nutrition", .num 0), ("fitness", .num 0), ("supplements", .num 0),
                ("hydration", .num 0), ("sleep", .num 0)],
    longestStreaks := [("nutrition", .num 0), ("fitness", .num 0), ("supplements", .num 0),
                       ("hydration", .num 0), ("sleep", .num 0)] }

/-- Replacement of the first element satisfying `p` by `y`: this is how the
source's pattern "find a record, then mutate the found object in place"
acts on the containing array. -/
def replaceFirst (p : α → Bool) (y : α) : List α → List α
  | [] => []
  | x :: xs => if p x then y :: xs else x :: replaceFirst p y xs

/-- Return value of updateStreak. -/
structure StreakResult where
  activityType : String
  currentStreak : JSVal
  longestStreak : JSVal
deriving DecidableEq, Repr

/-- The in-place mutation updateStreak performs on the found (or freshly
created) record.  `continued` is the source's
`yesterdayActivity && yesterdayActivity.completed`: if completed, advance
or restart the current streak, then raise the longest streak when the
current exceeds it; otherwise zero the current streak. -/
def applyStreak (us : UserStreak) (activityType : String)
    (completed continued : Bool) : UserStreak :=
  if completed then
    let newCount :=
      if continued then jsAdd1 (objGet us.streaks activityType) else JSVal.num 1
    let withStreak := { us with streaks := objSet us.streaks activityType newCount }
    let cur := objGet withStreak.streaks activityType
    if jsGt cur (objGet withStreak.longestStreaks activityType) then
      { withStreak with longestStreaks := objSet withStreak.longestStreaks activityType cur }
    else withStreak
  else { us with streaks := objSet us.streaks activityType (.num 0) }

/-- updateStreak(userId, activityType, completed).  `today` is the injected
calendar day (the source reads the wall clock); yesterday is `today - 1`.
The caller (log-activity) pushes today's log into `dailyHabits` before
calling this, and the yesterday lookup cannot see that log since its date
differs. -/
def updateStreak (s : EngineState) (userId activityType : String)
    (completed : Bool) (today : Int) : EngineState × StreakResult :=
  let found := s.userStreaks.find? (fun st => st.userId == userId)
  let streakList :=
    match found with
    | some _ => s.userStreaks
    | none => s.userStreaks ++ [initializeUserStreak userId]
  let us :=
    match found with
    | some us => us
    | none => initializeUserStreak userId
  let yesterday := today - 1
  let yesterdayActivity := s.dailyHabits.find? (fun log =>
    log.userId == userId && log.activityType == activityType && log.date == yesterday)
  let continued :=
    match yesterdayActivity with
    | some ya => ya.completed
    | none => false
  let us' := applyStreak us activityType completed continued
  ({ s with userStreaks := replaceFirst (fun st => st.userId == userId) us' streakList },
   { activityType := activityType,
     currentStreak := objGet us'.streaks activityType,
     longestStreak := objGet us'.longestStreaks activityType })

/-- awardBadge(userId, badgeId).  The source's catalog lookup chain,
`Object.values(BADGES).flatMap(category => Object.entries(category).find(([id,_]) => id === badgeId)).find(b => b)?.[1]`,
behaves as follows: for a badgeId present in the catalog, flatMap splices
the found `[id, definition]` pair into the stream, so `.find(b => b)` picks
the badge-id STRING itself (the first truthy element), and `[1]` then
indexes into that string, yielding its second character; the subsequent
property reads `.name`, `.description`, `.points` on that one-character
string all evaluate to undefined.  For an absent badgeId the chain yields
undefined and the function returns null.  Net effect, embedded here:
catalog membership of the id decides success, and the created record's
`points` field is undefined — never the catalog value. -/
def awardBadge (s : EngineState) (userId badgeId : String) :
    EngineState × Option UserBadge :=
  if (BADGES.find? (fun kv => kv.1 == badgeId)).isSome then
    let userBadge : UserBadge := { userId := userId, badgeId := badgeId, points := .undefined }
    ({ s with userBadges := s.userBadges ++ [userBadge] }, some userBadge)
  else (s, none)

/-- Body of the `Object.entries(userStreak.streaks).forEach` loop in
checkForNewBadges.  `earned` is the earnedBadges snapshot taken before the
loop; the source does not refresh it while the loop itself awards badges. -/
def streakBadgeStep (userId : String) (earned : List UserBadge)
    (acc : EngineState × List (Option UserBadge)) (kv : String × JSVal) :
    EngineState × List (Option UserBadge) :=
  let streak := kv.2
  let acc1 :=
    if jsGe streak (.num 7) && !(earned.any (fun b => b.badgeId == "7-day-streak")) then
      let r := awardBadge acc.1 userId "7-day-streak"
      (r.1, acc.2 ++ [r.2])
    else acc
  if jsGe streak (.num 30) && !(earned.any (fun b => b.badgeId == "30-day-streak")) then
    let r := awardBadge acc1.1 userId "30-day-streak"
    (r.1, acc1.2 ++ [r.2])
  else acc1

/-- checkForNewBadges(userId).  When no UserStreak record exists for the
user the source would dereference undefined and throw (caught by the
route's try/catch); that branch is unreachable from log-activity, which
always runs updateStreak first, and we return no badges there.  Note that
the nutrition-count branch, unlike the streak branches, performs NO lookup
in earned badges before awarding `healthy-eating`. -/
def checkForNewBadges (s : EngineState) (userId : String) :
    EngineState × List (Option UserBadge) :=
  match s.userStreaks.find? (fun st => st.userId == userId) with
  | none => (s, [])
  | some userStreak =>
    let earned := s.userBadges.filter (fun b => b.userId == userId)
    let acc := userStreak.streaks.foldl (streakBadgeStep userId earned) (s, [])
    let nutritionActivities := acc.1.dailyHabits.filter (fun log =>
      log.userId == userId &&
      (log.activityType == "healthy-eating" || log.activityType == "supplement-consistency"))
    if nutritionActivities.length ≥ 7 then
      let r := awardBadge acc.1 userId "healthy-eating"
      (r.1, acc.2 ++ [r.2])
    else acc

/-- Fixed per-activity-type point values: the `points` object literal in
awardPoints. -/
def pointsTable : List (String × Int) :=
  [("healthy-eating", 10), ("supplement-consistency", 15), ("workout", 20),
   ("hydration", 5), ("sleep", 8), ("meditation", 12)]

/-- JavaScript `v || d` on a looked-up number: `d` when the key is absent
(or the stored value is 0 — all table values are nonzero, but we keep the
truthiness semantics). -/
def jsOrDefault (v : Option Int) (d : Int) : Int :=
  match v with
  | some n => if n = 0 then d else n
  | none => d

/-- awardPoints(userId, activityType, completed).  The route passes the RAW
request field `completed` here — not the `completed !== false` default it
applies to the log record and the streak — so an omitted field (`none`) is
falsy and earns nothing. -/
def awardPoints (s : EngineState) (userId activityType : String)
    (completed : Option Bool) : EngineState × Int :=
  if completed == some true then
    let pointsEarned :=
      jsOrDefault ((pointsTable.find? (fun kv => kv.1 == activityType)).map (fun kv => kv.2)) 5
    ({ s with rewardHistory := s.rewardHistory ++
        [{ userId := userId, activityType := some activityType,
           points := some pointsEarned, pointsUsed := none }] },
     pointsEarned)
  else (s, 0)

/-- Sum of `points || 0` over a user's entries of a rewardHistory list
(the `filter`/`reduce` body of calculateTotalPoints). -/
def userSum (rh : List RewardEntry) (userId : String) : Int :=
  (rh.filter (fun r => r.userId == userId)).foldl
    (fun total r => total + r.points.getD 0) 0

/-- calculateTotalPoints(userId): sum of `points || 0` over the user's
rewardHistory entries. -/
def calculateTotalPoints (s : EngineState) (userId : String) : Int :=
  userSum s.rewardHistory userId

/-- Errors of the log-activity route. -/
inductive LogError where
  | validationError
  | duplicateLogError
deriving DecidableEq, Repr

/-- Successful response payload of the log-activity route. -/
structure LogResult where
  log : ActivityLog
  streakUpdate : StreakResult
  newBadges : List (Option UserBadge)
  pointsAwarded : Int
deriving DecidableEq, Repr

/-- POST /log-activity, the part after the guards: push the log, then
updateStreak, checkForNewBadges, awardPoints, in source order.
`completed : Option Bool` models the optional JSON field (`none` =
omitted); `today` is the injected calendar day. -/
def logActivityBody (s : EngineState) (userId activityType : String)
    (completed : Option Bool) (today : Int) : EngineState × LogResult :=
  let activityLog : ActivityLog :=
    { userId := userId, activityType := activityType, date := today,
      completed := completed != some false }
  let s1 : EngineState := { s with dailyHabits := s.dailyHabits ++ [activityLog] }
  let r2 := updateStreak s1 userId activityType (completed != some false) today
  let r3 := checkForNewBadges r2.1 userId
  let r4 := awardPoints r3.1 userId activityType completed
  (r4.1, { log := activityLog, streakUpdate := r2.2,
           newBadges := r3.2, pointsAwarded := r4.2 })

/-- Guards of the route, then the body above. -/
def logActivity (s : EngineState) (userId activityType : String)
    (completed : Option Bool) (today : Int) : EngineState × Except LogError LogResult :=
  if userId == "" || activityType == "" then (s, .error .validationError)
  else if (s.dailyHabits.find? (fun log =>
      log.userId == userId && log.activityType == activityType && log.date == today)).isSome then
    (s, .error .duplicateLogError)
  else
    let r := logActivityBody s userId activityType completed today
    (r.1, .ok r.2)

/-- One log-activity request (with its injected calendar day). -/
structure LogRequest where
  userId : String
  activityType : String
  completed : Option Bool
  today : Int
deriving DecidableEq, Repr

/-- State transition of one log-activity call. -/
def runLog (s : EngineState) (r : LogRequest) : EngineState :=
  (logActivity s r.userId r.activityType r.completed r.today).1

/-- State after a sequence of log-activity calls from the empty arrays. -/
def runAll (rs : List LogRequest) : EngineState := rs.foldl runLog initialState

/-- One leaderboard row. -/
structure LeaderboardEntry where
  rank : Nat
  userId : String
  points : Int
  badges : Nat
deriving DecidableEq, Repr

/-- Grouping loop of generateLeaderboard: the `userPoints` object keyed by
userId in first-appearance order.  The source initialises a missing — or
zero-valued — entry to 0 and then adds `points || 0`; branching on key
presence is extensionally identical, since re-assigning 0 to an existing
zero-valued key changes nothing. -/
def tallyStep (acc : List (String × Int)) (r : RewardEntry) : List (String × Int) :=
  if acc.any (fun kv => kv.1 == r.userId) then
    acc.map (fun kv => if kv.1 == r.userId then (kv.1, kv.2 + r.points.getD 0) else kv)
  else acc ++ [(r.userId, r.points.getD 0)]

/-- The per-user point totals, in first-appearance order. -/
def tallyPoints (rh : List RewardEntry) : List (String × Int) := rh.foldl tallyStep []

/-- Ordering of the sort comparator `([,a],[,b]) => b - a`: descending by
summed points. -/
def pointsDesc (a b : String × Int) : Prop := b.2 ≤ a.2

instance : DecidableRel pointsDesc := fun a b => inferInstanceAs (Decidable (b.2 ≤ a.2))

instance : IsTotal (String × Int) pointsDesc := ⟨fun a b => le_total b.2 a.2⟩

instance : IsTrans (String × Int) pointsDesc := ⟨fun _ _ _ h1 h2 => le_trans h2 h1⟩

/-- generateLeaderboard(type, limit).  `.sort(([,a],[,b]) => b - a)` is a
stable descending sort on the summed points (sort stability is guaranteed
by the language spec); `List.insertionSort` with `pointsDesc` is a stable
descending sort, hence computes the same list.  `rankBy` (the `type` query
parameter) is accepted and ignored, as in the source. -/
def generateLeaderboard (s : EngineState) (rankBy : String) (limit : Nat) :
    List LeaderboardEntry :=
  let userPoints := tallyPoints s.rewardHistory
  let sorted := userPoints.insertionSort pointsDesc
  ((sorted.take limit).enum).map (fun ik =>
    { rank := ik.1 + 1, userId := ik.2.1, points := ik.2.2,
      badges := (s.userBadges.filter (fun b => b.userId == ik.2.1)).length })

/-- A reward-catalog entry. -/
structure Reward where
  name : String
  pointsRequired : Int
deriving DecidableEq, Repr

/-- Errors of the redeem route. -/
inductive RedeemError where
  | rewardNotFound
  | insufficientPoints (required current : Int)
deriving DecidableEq, Repr

/-- The redemption record of a successful redeem (uuid, timestamp and the
constant `status: 'claimed'` omitted). -/
structure Redemption where
  userId : String
  rewardId : String
  rewardName : String
  pointsUsed : Int
deriving DecidableEq, Repr

/-- Modelled from the spec: the redeem route calls `getRewardById(rewardId)`,
but no definition of getRewardById — nor any reward catalog — appears
anywhere in the repository's source; the spec says redemptions "debit
points against a static reward catalog".  We model the missing catalog as
a parameter mapping reward ids to entries (name, pointsRequired), `none`
for an id not in the catalog. -/
def getRewardById (catalog : String → Option Reward) (rewardId : String) :
    Option Reward := catalog rewardId

/-- POST /:userId/redeem.  On success the pushed rewardHistory record
carries the spent amount only in `pointsUsed` and has NO `points` field,
so it contributes 0 to calculateTotalPoints; the second component of the
ok result is the `remainingPoints` figure reported in the response. -/
def redeem (catalog : String → Option Reward) (s : EngineState)
    (userId rewardId : String) : EngineState × Except RedeemError (Redemption × Int) :=
  let userPoints := calculateTotalPoints s userId
  match getRewardById catalog rewardId with
  | none => (s, .error .rewardNotFound)
  | some reward =>
    if userPoints < reward.pointsRequired then
      (s, .error (.insufficientPoints reward.pointsRequired userPoints))
    else
      let redemption : Redemption :=
        { userId := userId, rewardId := rewardId, rewardName := reward.name,
          pointsUsed := reward.pointsRequired }
      ({ s with rewardHistory := s.rewardHistory ++
          [{ userId := userId, activityType := none, points := none,
             pointsUsed := some reward.pointsRequired }] },
       .ok (redemption, userPoints - reward.pointsRequired))

/-- The five activity types whose counters initializeUserStreak
pre-populates. -/
def fiveTypes : List String :=
  ["nutrition", "fitness", "supplements", "hydration", "sleep"]

/-!  Basic lemmas about the object model and the state plumbing. -/

/-- Key lookup after a property write. -/
theorem find?_objSet (o : JSObj) (k k' : String) (v : JSVal) :
    (objSet o k v).find? (fun kv => kv.1 == k') =
      if k' = k then some (k, v) else o.find? (fun kv => kv.1 == k') := by
  induction o with
  | nil =>
    by_cases h : k' = k
    · subst h
      simp [objSet, List.find?_cons_of_pos]
    · have hb : (k == k') = false := beq_eq_false_iff_ne.mpr (fun hh => h hh.symm)
      simp [objSet, List.find?, hb, h]
  | cons kv rest ih =>
    by_cases hk : kv.1 = k
    · have hb : (kv.1 == k) = true := beq_iff_eq.mpr hk
      by_cases h : k' = k
      · subst h
        simp [objSet, hb, List.find?_cons_of_pos, beq_iff_eq]
      · have hb1 : (k == k') = false := beq_eq_false_iff_ne.mpr (fun hh => h hh.symm)
        have hb2 : (kv.1 == k') = false := beq_eq_false_iff_ne.mpr (fun hh => h (hk ▸ hh).symm)
        simp [objSet, hb, List.find?, hb1, hb2, h]
    · have hb : (kv.1 == k) = false := beq_eq_false_iff_ne.mpr hk
      by_cases h2 : kv.1 = k'
      · have hb2 : (kv.1 == k') = true := beq_iff_eq.mpr h2
        have h : k' ≠ k := fun hh => hk (h2.trans hh)
        simp [objSet, hb, List.find?, hb2, h]
      · have hb2 : (kv.1 == k') = false := beq_eq_false_iff_ne.mpr h2
        simp [objSet, hb, List.find?, hb2, ih]

/-- Reading after writing: the written key returns the new value, any other
key is unaffected. -/
theorem objGet_objSet (o : JSObj) (k k' : String) (v : JSVal) :
    objGet (objSet o k v) k' = if k' = k then v else objGet o k' := by
  unfold objGet
  rw [find?_objSet]
  by_cases h : k' = k <;> simp [h]

/-- Membership after replacing the first match: every element was already
there, or is the replacement. -/
theorem mem_replaceFirst {p : α → Bool} {y x : α} {l : List α}
    (hx : x ∈ replaceFirst p y l) : x ∈ l ∨ x = y := by
  induction l with
  | nil => simp [replaceFirst] at hx
  | cons a as ih =>
    simp only [replaceFirst] at hx
    split at hx
    · rcases List.mem_cons.mp hx with h | h
      · exact Or.inr h
      · exact Or.inl (List.mem_cons_of_mem _ h)
    · rcases List.mem_cons.mp hx with h | h
      · exact Or.inl (h ▸ List.mem_cons_self _ _)
      · rcases ih h with h' | h'
        · exact Or.inl (List.mem_cons_of_mem _ h')
        · exact Or.inr h'

/-- Replacing a first `p`-match does not disturb a `q`-search when `p` and
`q` are disjoint and the replacement itself satisfies `p`. -/
theorem find?_replaceFirst_disj (p q : α → Bool) (y : α) (l : List α)
    (hpy : p y = true) (hpq : ∀ z, p z = true → q z = false) :
    (replaceFirst p y l).find? q = l.find? q := by
  induction l with
  | nil => rfl
  | cons a as ih =>
    by_cases hpa : p a = true
    · rw [replaceFirst, if_pos hpa]
      rw [List.find?_cons_of_neg _ (by simp [hpq y hpy]),
          List.find?_cons_of_neg _ (by simp [hpq a hpa])]
    · rw [replaceFirst, if_neg hpa]
      cases hqa : q a
      · rw [List.find?_cons_of_neg _ (by simp [hqa]),
            List.find?_cons_of_neg _ (by simp [hqa]), ih]
      · rw [List.find?_cons_of_pos _ hqa, List.find?_cons_of_pos _ hqa]

/-- When the search finds something, the search after replacing the first
match returns the replacement (which itself matches). -/
theorem find?_replaceFirst_found (p : α → Bool) (y x : α) (l : List α)
    (hpy : p y = true) (hfound : l.find? p = some x) :
    (replaceFirst p y l).find? p = some y := by
  induction l with
  | nil => simp at hfound
  | cons a as ih =>
    by_cases hpa : p a = true
    · rw [replaceFirst, if_pos hpa]
      exact List.find?_cons_of_pos _ hpy
    · rw [replaceFirst, if_neg hpa]
      rw [List.find?_cons_of_neg _ hpa] at hfound
      rw [List.find?_cons_of_neg _ hpa]
      exact ih hfound

/-!  Frame lemmas: which arrays each operation leaves untouched. -/

theorem updateStreak_userBadges (s : EngineState) (u t : String) (c : Bool) (d : Int) :
    (updateStreak s u t c d).1.userBadges = s.userBadges := rfl

theorem updateStreak_rewardHistory (s : EngineState) (u t : String) (c : Bool) (d : Int) :
    (updateStreak s u t c d).1.rewardHistory = s.rewardHistory := rfl

theorem updateStreak_dailyHabits (s : EngineState) (u t : String) (c : Bool) (d : Int) :
    (updateStreak s u t c d).1.dailyHabits = s.dailyHabits := rfl

theorem awardBadge_userStreaks (s : EngineState) (u b : String) :
    (awardBadge s u b).1.userStreaks = s.userStreaks := by
  unfold awardBadge; split <;> rfl

theorem awardBadge_rewardHistory (s : EngineState) (u b : String) :
    (awardBadge s u b).1.rewardHistory = s.rewardHistory := by
  unfold awardBadge; split <;> rfl

theorem awardBadge_dailyHabits (s : EngineState) (u b : String) :
    (awardBadge s u b).1.dailyHabits = s.dailyHabits := by
  unfold awardBadge; split <;> rfl

theorem streakBadgeStep_userStreaks (u : String) (e : List UserBadge)
    (acc : EngineState × List (Option UserBadge)) (kv : String × JSVal) :
    (streakBadgeStep u e acc kv).1.userStreaks = acc.1.userStreaks := by
  simp only [streakBadgeStep]
  split <;> split <;> simp [awardBadge_userStreaks]

theorem streakBadgeStep_rewardHistory (u : String) (e : List UserBadge)
    (acc : EngineState × List (Option UserBadge)) (kv : String × JSVal) :
    (streakBadgeStep u e acc kv).1.rewardHistory = acc.1.rewardHistory := by
  simp only [streakBadgeStep]
  split <;> split <;> simp [awardBadge_rewardHistory]

theorem streakBadgeStep_dailyHabits (u : String) (e : List UserBadge)
    (acc : EngineState × List (Option UserBadge)) (kv : String × JSVal) :
    (streakBadgeStep u e acc kv).1.dailyHabits = acc.1.dailyHabits := by
  simp only [streakBadgeStep]
  split <;> split <;> simp [awardBadge_dailyHabits]

theorem foldl_streakBadgeStep_userStreaks (u : String) (e : List UserBadge)
    (l : List (String × JSVal)) (acc : EngineState × List (Option UserBadge)) :
    (l.foldl (streakBadgeStep u e) acc).1.userStreaks = acc.1.userStreaks := by
  induction l generalizing acc with
  | nil => rfl
  | cons kv l ih => rw [List.foldl_cons, ih, streakBadgeStep_userStreaks]

theorem foldl_streakBadgeStep_rewardHistory (u : String) (e : List UserBadge)
    (l : List (String × JSVal)) (acc : EngineState × List (Option UserBadge)) :
    (l.foldl (streakBadgeStep u e) acc).1.rewardHistory = acc.1.rewardHistory := by
  induction l generalizing acc with
  | nil => rfl
  | cons kv l ih => rw [List.foldl_cons, ih, streakBadgeStep_rewardHistory]

theorem foldl_streakBadgeStep_dailyHabits (u : String) (e : List UserBadge)
    (l : List (String × JSVal)) (acc : EngineState × List (Option UserBadge)) :
    (l.foldl (streakBadgeStep u e) acc).1.dailyHabits = acc.1.dailyHabits := by
  induction l generalizing acc with
  | nil => rfl
  | cons kv l ih => rw [List.foldl_cons, ih, streakBadgeStep_dailyHabits]

theorem checkForNewBadges_userStreaks (s : EngineState) (u : String) :
    (checkForNewBadges s u).1.userStreaks = s.userStreaks := by
  unfold checkForNewBadges
  split
  · rfl
  · simp only
    split <;> simp [awardBadge_userStreaks, foldl_streakBadgeStep_userStreaks]

theorem checkForNewBadges_rewardHistory (s : EngineState) (u : String) :
    (checkForNewBadges s u).1.rewardHistory = s.rewardHistory := by
  unfold checkForNewBadges
  split
  · rfl
  · simp only
    split <;> simp [awardBadge_rewardHistory, foldl_streakBadgeStep_rewardHistory]

theorem checkForNewBadges_dailyHabits (s : EngineState) (u : String) :
    (checkForNewBadges s u).1.dailyHabits = s.dailyHabits := by
  unfold checkForNewBadges
  split
  · rfl
  · simp only
    split <;> simp [awardBadge_dailyHabits, foldl_streakBadgeStep_dailyHabits]

theorem awardPoints_userStreaks (s : EngineState) (u t : String) (c : Option Bool) :
    (awardPoints s u t c).1.userStreaks = s.userStreaks := by
  unfold awardPoints; split <;> rfl

theorem awardPoints_userBadges (s : EngineState) (u t : String) (c : Option Bool) :
    (awardPoints s u t c).1.userBadges = s.userBadges := by
  unfold awardPoints; split <;> rfl

theorem awardPoints_dailyHabits (s : EngineState) (u t : String) (c : Option Bool) :
    (awardPoints s u t c).1.dailyHabits = s.dailyHabits := by
  unfold awardPoints; split <;> rfl

/-- Points for one completed event of the given type:
`points[activityType] || 5`. -/
def pointsFor (t : String) : Int :=
  jsOrDefault ((pointsTable.find? (fun kv => kv.1 == t)).map (fun kv => kv.2)) 5

/-- The ledger entry awardPoints pushes for a completed event. -/
def activityEntry (u t : String) : RewardEntry :=
  { userId := u, activityType := some t, points := some (pointsFor t), pointsUsed := none }

theorem awardPoints_rewardHistory (s : EngineState) (u t : String) (c : Option Bool) :
    (awardPoints s u t c).1.rewardHistory =
      if c == some true then s.rewardHistory ++ [activityEntry u t]
      else s.rewardHistory := by
  unfold awardPoints activityEntry pointsFor
  split <;> simp_all

theorem awardPoints_points (s : EngineState) (u t : String) (c : Option Bool) :
    (awardPoints s u t c).2 = if c == some true then pointsFor t else 0 := by
  unfold awardPoints pointsFor
  split <;> simp_all

/-- The log record the route creates (ids and timestamps omitted). -/
def logRecord (u t : String) (c : Option Bool) (d : Int) : ActivityLog :=
  { userId := u, activityType := t, date := d, completed := c != some false }

theorem logActivityBody_dailyHabits (s : EngineState) (u t : String) (c : Option Bool) (d : Int) :
    (logActivityBody s u t c d).1.dailyHabits =
      s.dailyHabits ++ [logRecord u t c d] := by
  simp only [logActivityBody, logRecord, awardPoints_dailyHabits, checkForNewBadges_dailyHabits,
    updateStreak_dailyHabits]

theorem logActivityBody_userStreaks (s : EngineState) (u t : String) (c : Option Bool) (d : Int) :
    (logActivityBody s u t c d).1.userStreaks =
      (updateStreak { s with dailyHabits := s.dailyHabits ++ [logRecord u t c d] }
        u t (c != some false) d).1.userStreaks := by
  simp only [logActivityBody, logRecord, awardPoints_userStreaks, checkForNewBadges_userStreaks]

theorem logActivityBody_rewardHistory (s : EngineState) (u t : String) (c : Option Bool) (d : Int) :
    (logActivityBody s u t c d).1.rewardHistory =
      if c == some true then s.rewardHistory ++ [activityEntry u t]
      else s.rewardHistory := by
  simp only [logActivityBody, awardPoints_rewardHistory, checkForNewBadges_rewardHistory,
    updateStreak_rewardHistory]

theorem logActivityBody_pointsAwarded (s : EngineState) (u t : String) (c : Option Bool) (d : Int) :
    (logActivityBody s u t c d).2.pointsAwarded =
      if c == some true then pointsFor t else 0 := by
  simp only [logActivityBody, awardPoints_points]

/-- Unfolding of logActivity when both guards pass. -/
theorem logActivity_ok (s : EngineState) (u t : String) (c : Option Bool) (d : Int)
    (hu : (u == "") = false) (ht : (t == "") = false)
    (hdup : s.dailyHabits.find? (fun log =>
      log.userId == u && log.activityType == t && log.date == d) = none) :
    logActivity s u t c d =
      ((logActivityBody s u t c d).1, .ok (logActivityBody s u t c d).2) := by
  unfold logActivity
  simp [hu, ht, hdup]

/-- Unfolding of logActivity when the duplicate guard trips. -/
theorem logActivity_dup (s : EngineState) (u t : String) (c : Option Bool) (d : Int)
    (hu : (u == "") = false) (ht : (t == "") = false)
    (hdup : (s.dailyHabits.find? (fun log =>
      log.userId == u && log.activityType == t && log.date == d)).isSome = true) :
    logActivity s u t c d = (s, .error .duplicateLogError) := by
  unfold logActivity
  simp [hu, ht, hdup]

/-!  Sums over the points ledger. -/

theorem foldl_points_init (l : List RewardEntry) (a : Int) :
    l.foldl (fun total r => total + r.points.getD 0) a =
      a + l.foldl (fun total r => total + r.points.getD 0) 0 := by
  induction l generalizing a with
  | nil => simp
  | cons r l ih =>
    simp only [List.foldl_cons]
    rw [ih, ih (0 + r.points.getD 0)]
    ring

theorem userSum_append (rh₁ rh₂ : List RewardEntry) (u : String) :
    userSum (rh₁ ++ rh₂) u = userSum rh₁ u + userSum rh₂ u := by
  unfold userSum
  rw [List.filter_append, List.foldl_append, foldl_points_init]

theorem userSum_single (e : RewardEntry) (u : String) :
    userSum [e] u = if e.userId == u then e.points.getD 0 else 0 := by
  unfold userSum
  cases h : e.userId == u <;> simp [List.filter, h]

/-- C2: logging the same (user, type, day) key twice succeeds the first
time, fails with DuplicateLogError the second time, and the rejected
second call leaves the entire engine state exactly as it was after the
first call. -/
theorem C2_duplicate_rejected (s : EngineState) (u t : String) (c : Option Bool) (d : Int)
    (hu : u ≠ "") (ht : t ≠ "")
    (hdup : s.dailyHabits.find? (fun log =>
      log.userId == u && log.activityType == t && log.date == d) = none) :
    (∃ res, (logActivity s u t c d).2 = .ok res) ∧
    (logActivity (logActivity s u t c d).1 u t c d).2 = .error .duplicateLogError ∧
    (logActivity (logActivity s u t c d).1 u t c d).1 = (logActivity s u t c d).1 := by
  have hu' : (u == "") = false := beq_eq_false_iff_ne.mpr hu
  have ht' : (t == "") = false := beq_eq_false_iff_ne.mpr ht
  have h1 := logActivity_ok s u t c d hu' ht' hdup
  have hfind : ((logActivity s u t c d).1.dailyHabits.find? (fun log =>
      log.userId == u && log.activityType == t && log.date == d)).isSome = true := by
    rw [h1]
    simp only [logActivityBody_dailyHabits]
    rw [List.find?_append, hdup]
    simp [logRecord, List.find?]
  have h2 := logActivity_dup (logActivity s u t c d).1 u t c d hu' ht' hfind
  exact ⟨⟨(logActivityBody s u t c d).2, by rw [h1]⟩, by rw [h2], by rw [h2]⟩

/-- Witness for C2 at a concrete input. -/
theorem C2_witness :
    (∃ res, (logActivity initialState "alice" "nutrition" (some true) 1).2 = .ok res) ∧
    (logActivity (logActivity initialState "alice" "nutrition" (some true) 1).1
      "alice" "nutrition" (some true) 1).2 = .error .duplicateLogError ∧
    (logActivity (logActivity initialState "alice" "nutrition" (some true) 1).1
      "alice" "nutrition" (some true) 1).1 =
      (logActivity initialState "alice" "nutrition" (some true) 1).1 :=
  C2_duplicate_rejected initialState "alice" "nutrition" (some true) 1
    (by decide) (by decide) rfl

/-- C5 (amended): a logActivity call changes computeTotalPoints(v) by
exactly the activity points the call returns — for v the calling user on
a successful call, and by nothing otherwise.  In particular badge awards
contribute nothing to the ledger: only awardPoints appends to it. -/
theorem C5_points_delta (s : EngineState) (u t : String) (c : Option Bool) (d : Int)
    (v : String) :
    calculateTotalPoints (logActivity s u t c d).1 v =
      calculateTotalPoints s v +
        (match (logActivity s u t c d).2 with
         | .ok res => if v = u then res.pointsAwarded else 0
         | .error _ => 0) := by
  by_cases hg : (u == "" || t == "") = true
  · unfold logActivity
    rw [if_pos hg]
    simp
  · have hu' : (u == "") = false := by
      cases hb : (u == "") <;> simp_all
    have ht' : (t == "") = false := by
      cases hb : (t == "") <;> simp_all
    by_cases hdup : (s.dailyHabits.find? (fun log =>
        log.userId == u && log.activityType == t && log.date == d)).isSome = true
    · rw [logActivity_dup s u t c d hu' ht' hdup]
      simp
    · have hnone : s.dailyHabits.find? (fun log =>
          log.userId == u && log.activityType == t && log.date == d) = none := by
        cases hf : s.dailyHabits.find? (fun log =>
          log.userId == u && log.activityType == t && log.date == d) <;> simp_all
      rw [logActivity_ok s u t c d hu' ht' hnone]
      show calculateTotalPoints (logActivityBody s u t c d).1 v =
        calculateTotalPoints s v +
          (if v = u then (logActivityBody s u t c d).2.pointsAwarded else 0)
      unfold calculateTotalPoints
      rw [logActivityBody_rewardHistory, logActivityBody_pointsAwarded]
      by_cases hc : (c == some true) = true
      · rw [if_pos hc, if_pos hc, userSum_append, userSum_single]
        by_cases hv : v = u
        · subst hv
          simp [activityEntry]
        · have : (u == v) = false := beq_eq_false_iff_ne.mpr (fun hh => hv hh.symm)
          simp [activityEntry, this, hv]
      · rw [if_neg hc, if_neg hc]
        simp

/-- C8: the redeem route fails with NotFound exactly when the reward id is
not in the catalog; fails with InsufficientPoints — carrying the required
and current amounts — exactly when the reward exists and the user's total
is below pointsRequired; and otherwise succeeds.  In every failure the
state is unchanged. -/
theorem C8_redeem_errors (catalog : String → Option Reward) (s : EngineState)
    (u rid : String) :
    (getRewardById catalog rid = none →
      redeem catalog s u rid = (s, .error .rewardNotFound)) ∧
    (∀ rwd, getRewardById catalog rid = some rwd →
      (calculateTotalPoints s u < rwd.pointsRequired →
        redeem catalog s u rid =
          (s, .error (.insufficientPoints rwd.pointsRequired (calculateTotalPoints s u)))) ∧
      (¬ calculateTotalPoints s u < rwd.pointsRequired →
        (redeem catalog s u rid).2 =
          .ok ({ userId := u, rewardId := rid, rewardName := rwd.name, pointsUsed := rwd.pointsRequired }, calculateTotalPoints s u - rwd.pointsRequired))) := by
  constructor
  · intro h
    unfold redeem
    rw [h]
  · intro rwd h
    constructor
    · intro hlt
      unfold redeem
      rw [h]
      simp only [calculateTotalPoints] at hlt ⊢
      simp [hlt]
    · intro hge
      unfold redeem
      rw [h]
      simp only [calculateTotalPoints] at hge ⊢
      simp [hge]

/-- C1 counterexample: after a single completed log of activity type
"workout" — a type outside the five pre-populated counters — the current
streak is 1 but the longest streak is undefined (the source only assigns
`longestStreaks[t]` when `current > longest`, and `1 > undefined` is
false), so the claimed invariant `longestStreaks[u][t] >= streaks[u][t]`
(JavaScript `>=`) is false after this logActivity call. -/
theorem C1_counterexample :
    (((runAll [⟨"u", "workout", some true, 0⟩]).userStreaks.find?
        (fun st => st.userId == "u")).map
      (fun us => (objGet us.streaks "workout", objGet us.longestStreaks "workout",
        jsGe (objGet us.longestStreaks "workout") (objGet us.streaks "workout")))) =
      some (JSVal.num 1, JSVal.undefined, false) := by decide

/-- C3 at the failing input: after eight consecutive completed
"healthy-eating" logs the user holds TWO UserBadge records with badgeId
"healthy-eating" (awarded by the 7th and again by the 8th call) — the
nutrition-count branch of checkForNewBadges never consults the earned
badges, unlike the streak-badge branches. -/
theorem C3_failing_eval :
    ((runAll ((List.range 8).map
        (fun i => ⟨"u", "healthy-eating", some true, (i : Int)⟩))).userBadges.filter
      (fun b => b.userId == "u" && b.badgeId == "healthy-eating")).length = 2 := by decide

/-- C4 at the failing input: with `completed` omitted the created log has
completed = true and the streak starts at 1, but awardPoints receives the
raw omitted value, treats it as falsy, awards 0 points and appends no
ledger entry — the claim expects the default point value (5 for the
unrecognized type "nutrition") and one PointsLedger entry. -/
theorem C4_failing_eval :
    ((logActivity initialState "u" "nutrition" none 0).2.map
        (fun res => (res.log.completed, res.streakUpdate.currentStreak, res.pointsAwarded))) =
      .ok (true, JSVal.num 1, 0) ∧
    (logActivity initialState "u" "nutrition" none 0).1.rewardHistory = [] := by decide

/-- C5 counterexample: seven consecutive completed "workout" logs award
7 × 20 = 140 activity points and one "7-day-streak" badge whose catalog
value is 50; computeTotalPoints returns 140, not 140 + 50: awardBadge
never appends to the PointsLedger, and the badge record's own points
field is undefined rather than the catalog value. -/
theorem C5_counterexample :
    (let s := runAll ((List.range 7).map (fun i => ⟨"u", "workout", some true, (i : Int)⟩));
     calculateTotalPoints s "u" = 140 ∧
     s.userBadges.map (fun b => (b.badgeId, b.points)) = [("7-day-streak", JSVal.undefined)] ∧
     (BADGES.find? (fun kv => kv.1 == "7-day-streak")).map (fun kv => kv.2) = some 50 ∧
     s.rewardHistory.length = 7 ∧
     calculateTotalPoints s "u" ≠ 140 + 50) := by decide

/-- C6 counterexample: for activity type "workout" — outside the five
pre-populated counters — five consecutive completed logs followed by a
completed=false log on day six leave the current streak at 0 as claimed,
but the longest streak is undefined, not 5. -/
theorem C6_counterexample :
    (let s := runAll [⟨"u", "workout", some true, 1⟩, ⟨"u", "workout", some true, 2⟩,
        ⟨"u", "workout", some true, 3⟩, ⟨"u", "workout", some true, 4⟩,
        ⟨"u", "workout", some true, 5⟩, ⟨"u", "workout", some false, 6⟩];
     ((s.userStreaks.find? (fun st => st.userId == "u")).map
       (fun us => (objGet us.streaks "workout", objGet us.longestStreaks "workout"))) =
         some (JSVal.num 0, JSVal.undefined) ∧ JSVal.undefined ≠ JSVal.num 5) := by decide

/-- C9 at the failing input: the user holds 20 ledger points; redeeming a
reward that requires 10 succeeds, and the response reports
remainingPoints = 10, but computeTotalPoints over the resulting state is
still 20 — the pushed redemption record carries the spent amount only in
`pointsUsed` and has no `points` field, so the ledger total never drops
by pointsRequired. -/
theorem C9_failing_eval :
    (let catalog := fun rid => if rid = "r1" then some (Reward.mk "Protein Shake" 10) else none;
     let s0 : EngineState :=
       { initialState with rewardHistory := [⟨"u", some "workout", some 20, none⟩] };
     (redeem catalog s0 "u" "r1").2 = .ok (⟨"u", "r1", "Protein Shake", 10⟩, 10) ∧
     calculateTotalPoints (redeem catalog s0 "u" "r1").1 "u" = 20 ∧
     (20 : Int) ≠ 20 - 10) := by decide

/-- Witness for C8 at a concrete input: a catalog with one 10-point
reward and a user holding 5 points; the redemption is rejected with the
required and current amounts. -/
theorem C8_witness :
    redeem (fun rid => if rid = "r1" then some (Reward.mk "Protein Shake" 10) else none)
      { initialState with rewardHistory := [⟨"u", some "workout", some 5, none⟩] }
      "u" "r1" =
      ({ initialState with rewardHistory := [⟨"u", some "workout", some 5, none⟩] },
        .error (.insufficientPoints 10 5)) := by
  have h := (C8_redeem_errors
    (fun rid => if rid = "r1" then some (Reward.mk "Protein Shake" 10) else none)
    { initialState with rewardHistory := [⟨"u", some "workout", some 5, none⟩] }
    "u" "r1").2 (Reward.mk "Protein Shake" 10) (by decide)
  have h2 := h.1 (by decide)
  simpa using h2

/-!  The longest-vs-current streak invariant (claim C1). -/

theorem applyStreak_userId (us : UserStreak) (t : String) (c k : Bool) :
    (applyStreak us t c k).userId = us.userId := by
  simp only [applyStreak]
  repeat' split
  all_goals rfl

theorem applyStreak_other (us : UserStreak) (t : String) (c k : Bool)
    (t' : String) (hne : t' ≠ t) :
    objGet (applyStreak us t c k).streaks t' = objGet us.streaks t' ∧
    objGet (applyStreak us t c k).longestStreaks t' = objGet us.longestStreaks t' := by
  simp only [applyStreak]
  repeat' split
  all_goals constructor <;> simp [objGet_objSet, hne]

/-- Within a UserStreak record, each of the five pre-populated activity
types holds an ordinary pair of numbers with 0 ≤ current ≤ longest. -/
def GoodStreak (us : UserStreak) : Prop :=
  ∀ t ∈ fiveTypes, ∃ a b : Int,
    objGet us.streaks t = .num a ∧ objGet us.longestStreaks t = .num b ∧ 0 ≤ a ∧ a ≤ b

/-- The record invariant over every streak record of the state. -/
def StreakInv (s : EngineState) : Prop := ∀ us ∈ s.userStreaks, GoodStreak us

theorem goodStreak_init (u : String) : GoodStreak (initializeUserStreak u) := by
  intro t ht
  simp only [fiveTypes, List.mem_cons, List.not_mem_nil, or_false] at ht
  rcases ht with rfl | rfl | rfl | rfl | rfl <;>
    exact ⟨0, 0, rfl, rfl, le_refl 0, le_refl 0⟩

theorem goodStreak_applyStreak (us : UserStreak) (hus : GoodStreak us)
    (t : String) (c k : Bool) : GoodStreak (applyStreak us t c k) := by
  intro t' ht'
  obtain ⟨a, b, h1, h2, h3, h4⟩ := hus t' ht'
  by_cases hne : t' = t
  · subst hne
    cases c with
    | false =>
      refine ⟨0, b, ?_, ?_, le_refl 0, le_trans h3 h4⟩
      · simp [applyStreak, objGet_objSet]
      · simpa [applyStreak] using h2
    | true =>
      have hm : ∃ e : Int, (if k then jsAdd1 (objGet us.streaks t') else JSVal.num 1) = .num e ∧ 0 ≤ e := by
        cases k with
        | true => exact ⟨a + 1, by rw [h1]; rfl, by omega⟩
        | false => exact ⟨1, rfl, by omega⟩
      obtain ⟨e, he, he0⟩ := hm
      simp only [applyStreak, if_true, he, objGet_objSet, if_pos rfl, h2, jsGt]
      by_cases hbe : b < e
      · rw [if_pos (by simpa using hbe)]
        exact ⟨e, e, by simp [objGet_objSet], by simp [objGet_objSet], he0, le_refl e⟩
      · rw [if_neg (by simpa using hbe)]
        exact ⟨e, b, by simp [objGet_objSet], by simpa using h2, he0, by omega⟩
  · obtain ⟨ho1, ho2⟩ := applyStreak_other us t c k t' hne
    exact ⟨a, b, ho1.trans h1, ho2.trans h2, h3, h4⟩

theorem updateStreak_inv (s : EngineState) (u t : String) (c : Bool) (d : Int)
    (h : StreakInv s) : StreakInv (updateStreak s u t c d).1 := by
  unfold StreakInv at h ⊢
  unfold updateStreak
  cases hf : s.userStreaks.find? (fun st => st.userId == u) with
  | none =>
    simp only [hf]
    intro usx husx
    rcases mem_replaceFirst husx with hmem | rfl
    · rcases List.mem_append.mp hmem with hmem | hmem
      · exact h usx hmem
      · rw [List.mem_singleton.mp hmem]
        exact goodStreak_init u
    · exact goodStreak_applyStreak _ (goodStreak_init u) _ _ _
  | some us =>
    simp only [hf]
    intro usx husx
    rcases mem_replaceFirst husx with hmem | rfl
    · exact h usx hmem
    · exact goodStreak_applyStreak _ (h us (List.mem_of_find?_eq_some hf)) _ _ _

theorem streakInv_of_userStreaks_eq {s s' : EngineState}
    (hEq : s'.userStreaks = s.userStreaks) (h : StreakInv s) : StreakInv s' := by
  intro us hus
  exact h us (hEq ▸ hus)

theorem logActivity_inv (s : EngineState) (u t : String) (c : Option Bool) (d : Int)
    (h : StreakInv s) : StreakInv (logActivity s u t c d).1 := by
  unfold logActivity
  split
  · exact h
  · split
    · exact h
    · refine streakInv_of_userStreaks_eq (logActivityBody_userStreaks s u t c d) ?_
      exact updateStreak_inv _ u t _ d (streakInv_of_userStreaks_eq rfl h)

theorem streakInv_foldl (rs : List LogRequest) (s : EngineState) (h : StreakInv s) :
    StreakInv (rs.foldl runLog s) := by
  induction rs generalizing s with
  | nil => exact h
  | cons r rs ih => exact ih _ (logActivity_inv s r.userId r.activityType r.completed r.today h)

/-- C1 (amended): after any sequence of logActivity calls from the initial
empty state, `longestStreaks[u][t] >= streaks[u][t]` holds for every user
record and each of the five pre-populated activity types (nutrition,
fitness, supplements, hydration, sleep); for activity types outside these
five the invariant can fail, see the counterexample. -/
theorem C1_longest_ge_current (rs : List LogRequest) :
    ∀ us ∈ (runAll rs).userStreaks, ∀ t ∈ fiveTypes,
      jsGe (objGet us.longestStreaks t) (objGet us.streaks t) = true := by
  have h : StreakInv (runAll rs) := by
    refine streakInv_foldl rs initialState ?_
    intro us hus
    simp [initialState] at hus
  intro us hus t ht
  obtain ⟨a, b, h1, h2, h3, h4⟩ := h us hus t ht
  rw [h1, h2]
  simpa [jsGe] using h4

/-- The streak record produced by one completed "nutrition" log. -/
def c1WitnessRecord : UserStreak :=
  { userId := "u",
    streaks := [("nutrition", .num 1), ("fitness", .num 0), ("supplements", .num 0),
                ("hydration", .num 0), ("sleep", .num 0)],
    longestStreaks := [("nutrition", .num 1), ("fitness", .num 0), ("supplements", .num 0),
                       ("hydration", .num 0), ("sleep", .num 0)] }

/-- Witness for C1 at a concrete run. -/
theorem C1_witness :
    jsGe (objGet c1WitnessRecord.longestStreaks "nutrition")
      (objGet c1WitnessRecord.streaks "nutrition") = true :=
  C1_longest_ge_current [⟨"u", "nutrition", some true, 0⟩] c1WitnessRecord
    (by decide) "nutrition" (by decide)

/-- C6 (amended): for each of the five pre-populated activity types,
completed logs on five consecutive days produce a current streak of 5
with longest 5, and a completed=false log on day six resets the current
streak to 0 while the longest streak stays 5 (shown at the concrete
scenario user).  For activity types outside the five the current-streak
arithmetic is the same but the longest streak remains undefined rather
than 5 — see the counterexample. -/
theorem C6_five_day_streak (t : String) (ht : t ∈ fiveTypes) :
    (((runAll [⟨"alice", t, some true, 1⟩, ⟨"alice", t, some true, 2⟩,
        ⟨"alice", t, some true, 3⟩, ⟨"alice", t, some true, 4⟩,
        ⟨"alice", t, some true, 5⟩]).userStreaks.find?
          (fun st => st.userId == "alice")).map
      (fun us => (objGet us.streaks t, objGet us.longestStreaks t))) =
        some (JSVal.num 5, JSVal.num 5) ∧
    (((runAll [⟨"alice", t, some true, 1⟩, ⟨"alice", t, some true, 2⟩,
        ⟨"alice", t, some true, 3⟩, ⟨"alice", t, some true, 4⟩,
        ⟨"alice", t, some true, 5⟩, ⟨"alice", t, some false, 6⟩]).userStreaks.find?
          (fun st => st.userId == "alice")).map
      (fun us => (objGet us.streaks t, objGet us.longestStreaks t))) =
        some (JSVal.num 0, JSVal.num 5) := by
  simp only [fiveTypes, List.mem_cons, List.not_mem_nil, or_false] at ht
  rcases ht with rfl | rfl | rfl | rfl | rfl <;> exact ⟨by decide, by decide⟩

/-- Witness for C6 at the activity type "nutrition". -/
theorem C6_witness :
    (((runAll [⟨"alice", "nutrition", some true, 1⟩, ⟨"alice", "nutrition", some true, 2⟩,
        ⟨"alice", "nutrition", some true, 3⟩, ⟨"alice", "nutrition", some true, 4⟩,
        ⟨"alice", "nutrition", some true, 5⟩]).userStreaks.find?
          (fun st => st.userId == "alice")).map
      (fun us => (objGet us.streaks "nutrition", objGet us.longestStreaks "nutrition"))) =
        some (JSVal.num 5, JSVal.num 5) ∧
    (((runAll [⟨"alice", "nutrition", some true, 1⟩, ⟨"alice", "nutrition", some true, 2⟩,
        ⟨"alice", "nutrition", some true, 3⟩, ⟨"alice", "nutrition", some true, 4⟩,
        ⟨"alice", "nutrition", some true, 5⟩, ⟨"alice", "nutrition", some false, 6⟩]).userStreaks.find?
          (fun st => st.userId == "alice")).map
      (fun us => (objGet us.streaks "nutrition", objGet us.longestStreaks "nutrition"))) =
        some (JSVal.num 0, JSVal.num 5) :=
  C6_five_day_streak "nutrition" (by decide)

/-!  Correctness of the leaderboard tally (claim C7). -/

/-- Value the tally currently holds for a key (0 when absent, matching the
source's init-to-0 before adding). -/
def tallyGet (acc : List (String × Int)) (k : String) : Int :=
  match acc.find? (fun kv => kv.1 == k) with
  | some kv => kv.2
  | none => 0

theorem tallyGet_tallyStep (acc : List (String × Int)) (r : RewardEntry) (k : String) :
    tallyGet (tallyStep acc r) k =
      tallyGet acc k + (if r.userId == k then r.points.getD 0 else 0) := by
  unfold tallyStep tallyGet
  by_cases hany : acc.any (fun kv => kv.1 == r.userId) = true
  · rw [if_pos hany, List.find?_map]
    have hpf : ((fun kv : String × Int => kv.1 == k) ∘
        (fun kv => if kv.1 == r.userId then (kv.1, kv.2 + r.points.getD 0) else kv)) =
        (fun kv : String × Int => kv.1 == k) := by
      funext kv
      by_cases h : kv.1 = r.userId <;> simp [h]
    rw [hpf]
    cases hfind : acc.find? (fun kv => kv.1 == k) with
    | none =>
      have hne : (r.userId == k) = false := by
        rcases List.any_eq_true.mp hany with ⟨kv, hkv, hkvp⟩
        have hnone := List.find?_eq_none.mp hfind kv hkv
        have h1 : kv.1 = r.userId := by simpa using hkvp
        simp only [beq_eq_false_iff_ne]
        intro he
        exact hnone (by simp [h1, he])
      simp [hne]
    | some kv =>
      have hkv : kv.1 = k := by simpa using List.find?_some hfind
      by_cases he : r.userId = k
      · simp [hkv, he]
      · have h1 : (kv.1 == r.userId) = false := by
          simp [beq_eq_false_iff_ne, hkv]
          exact fun hh => he hh.symm
        have h2 : (r.userId == k) = false := beq_eq_false_iff_ne.mpr he
        have h3 : kv.1 ≠ r.userId := by
          rw [hkv]
          exact fun hh => he hh.symm
        simp [h1, h2, h3]
  · rw [if_neg hany, List.find?_append]
    cases hfind : acc.find? (fun kv => kv.1 == k) with
    | some kv =>
      have hkv : kv.1 = k := by simpa using List.find?_some hfind
      have hne : (r.userId == k) = false := by
        simp only [beq_eq_false_iff_ne]
        intro he
        exact hany (List.any_eq_true.mpr ⟨kv, List.mem_of_find?_eq_some hfind, by simp [hkv, he]⟩)
      simp [hne]
    | none =>
      by_cases he : r.userId = k
      · simp [List.find?, he]
      · have h2 : (r.userId == k) = false := beq_eq_false_iff_ne.mpr he
        simp [List.find?, h2]

theorem tallyGet_foldl (rh : List RewardEntry) (acc : List (String × Int)) (k : String) :
    tallyGet (rh.foldl tallyStep acc) k = tallyGet acc k + userSum rh k := by
  induction rh generalizing acc with
  | nil => simp [userSum]
  | cons r rh ih =>
    rw [List.foldl_cons, ih, tallyGet_tallyStep]
    have hsum : userSum (r :: rh) k =
        (if r.userId == k then r.points.getD 0 else 0) + userSum rh k := by
      have h := userSum_append [r] rh k
      simpa [userSum_single] using h
    rw [hsum]
    ring

theorem tallyStep_keys (acc : List (String × Int)) (r : RewardEntry) :
    (tallyStep acc r).map Prod.fst =
      if acc.any (fun kv => kv.1 == r.userId) then acc.map Prod.fst
      else acc.map Prod.fst ++ [r.userId] := by
  unfold tallyStep
  split
  · rw [List.map_map]
    congr 1
    funext kv
    by_cases h : kv.1 = r.userId <;> simp [h]
  · simp

theorem tally_keys_nodup (rh : List RewardEntry) (acc : List (String × Int))
    (hacc : (acc.map Prod.fst).Nodup) :
    ((rh.foldl tallyStep acc).map Prod.fst).Nodup := by
  induction rh generalizing acc with
  | nil => exact hacc
  | cons r rh ih =>
    rw [List.foldl_cons]
    apply ih
    rw [tallyStep_keys]
    split
    · exact hacc
    · rename_i hany
      have hnotin : r.userId ∉ acc.map Prod.fst := by
        intro hmem
        rcases List.mem_map.mp hmem with ⟨kv, hkv, hfst⟩
        exact hany (List.any_eq_true.mpr ⟨kv, hkv, by simp [hfst]⟩)
      simp [List.nodup_append, hacc, hnotin]

theorem mem_find?_of_nodup_keys (acc : List (String × Int)) (kv : String × Int)
    (hnd : (acc.map Prod.fst).Nodup) (hmem : kv ∈ acc) :
    acc.find? (fun x => x.1 == kv.1) = some kv := by
  induction acc with
  | nil => cases hmem
  | cons a rest ih =>
    rw [List.map_cons] at hnd
    rcases List.mem_cons.mp hmem with rfl | hmem'
    · exact List.find?_cons_of_pos _ (by simp)
    · have hne : a.1 ≠ kv.1 := by
        intro he
        exact (List.nodup_cons.mp hnd).1 (he ▸ List.mem_map_of_mem Prod.fst hmem')
      rw [List.find?_cons_of_neg _ (by simp [hne])]
      exact ih (List.nodup_cons.mp hnd).2 hmem'

/-- Every row of the tally carries exactly that user's ledger sum. -/
theorem mem_tallyPoints_sum (rh : List RewardEntry) (kv : String × Int)
    (hmem : kv ∈ tallyPoints rh) : kv.2 = userSum rh kv.1 := by
  have hnd := tally_keys_nodup rh [] (by simp)
  have hfind := mem_find?_of_nodup_keys _ kv hnd hmem
  have hfold := tallyGet_foldl rh [] kv.1
  unfold tallyPoints at hfind
  unfold tallyGet at hfold
  rw [hfind] at hfold
  simpa using hfold

theorem generateLeaderboard_length (s : EngineState) (ty : String) (limit : Nat) :
    (generateLeaderboard s ty limit).length ≤ limit := by
  simp only [generateLeaderboard, List.length_map, List.enum_length, List.length_take]
  exact Nat.min_le_left _ _

theorem generateLeaderboard_rank (s : EngineState) (ty : String) (limit : Nat)
    (i : Nat) (hi : i < (generateLeaderboard s ty limit).length) :
    ((generateLeaderboard s ty limit).get ⟨i, hi⟩).rank = i + 1 := by
  simp only [generateLeaderboard, List.get_eq_getElem, List.getElem_map, List.getElem_enum]

theorem generateLeaderboard_sorted (s : EngineState) (ty : String) (limit : Nat) :
    (generateLeaderboard s ty limit).Pairwise (fun a b => b.points ≤ a.points) := by
  rw [List.pairwise_iff_get]
  intro i j hij
  have hjlen : (j : Nat) < ((tallyPoints s.rewardHistory).insertionSort pointsDesc).length := by
    have hj := j.2
    simp only [generateLeaderboard, List.length_map, List.enum_length, List.length_take] at hj
    omega
  have hilen : (i : Nat) < ((tallyPoints s.rewardHistory).insertionSort pointsDesc).length := by
    have : (i : Nat) < (j : Nat) := hij
    omega
  have hs := List.sorted_insertionSort pointsDesc (tallyPoints s.rewardHistory)
  have hp := List.pairwise_iff_get.mp hs ⟨i, hilen⟩ ⟨j, hjlen⟩ (by exact hij)
  simp only [generateLeaderboard, List.get_eq_getElem, List.getElem_map, List.getElem_enum,
    List.getElem_take]
  simpa [pointsDesc, List.get_eq_getElem] using hp

theorem generateLeaderboard_points (s : EngineState) (ty : String) (limit : Nat)
    (e : LeaderboardEntry) (he : e ∈ generateLeaderboard s ty limit) :
    e.points = calculateTotalPoints s e.userId := by
  simp only [generateLeaderboard, List.mem_map] at he
  obtain ⟨ik, hik, rfl⟩ := he
  have h1 : ik.2 ∈ ((tallyPoints s.rewardHistory).insertionSort pointsDesc).take limit := by
    have h0 := List.mem_map_of_mem Prod.snd hik
    rwa [List.enum_map_snd] at h0
  have h2 : ik.2 ∈ (tallyPoints s.rewardHistory).insertionSort pointsDesc :=
    List.mem_of_mem_take h1
  have h3 : ik.2 ∈ tallyPoints s.rewardHistory :=
    (List.perm_insertionSort pointsDesc _).mem_iff.mp h2
  have h4 := mem_tallyPoints_sum _ _ h3
  simpa [calculateTotalPoints] using h4

/-- Ledger with three users totalling 100, 50 and 75 points (user "a"
spread over two entries: 60 + 40). -/
def exState : EngineState :=
  { initialState with
    rewardHistory := [⟨"a", some "workout", some 60, none⟩,
      ⟨"b", some "workout", some 50, none⟩, ⟨"c", some "workout", some 75, none⟩,
      ⟨"a", some "workout", some 40, none⟩] }

/-- C7: generateLeaderboard groups PointsLedger entries by userId, sums
points per user, sorts users descending by total, truncates to `limit`
rows and assigns 1-based ranks in sorted order; in particular three users
totalling 100, 50 and 75 come out ranked 1, 2, 3 as the 100-, 75- and
50-point users. -/
theorem C7_leaderboard :
    (generateLeaderboard exState "points" 10 =
      [⟨1, "a", 100, 0⟩, ⟨2, "c", 75, 0⟩, ⟨3, "b", 50, 0⟩]) ∧
    ∀ (s : EngineState) (ty : String) (limit : Nat),
      (generateLeaderboard s ty limit).length ≤ limit ∧
      (generateLeaderboard s ty limit).Pairwise (fun a b => b.points ≤ a.points) ∧
      (∀ i (hi : i < (generateLeaderboard s ty limit).length),
        ((generateLeaderboard s ty limit).get ⟨i, hi⟩).rank = i + 1) ∧
      (∀ e, e ∈ generateLeaderboard s ty limit → e.points = calculateTotalPoints s e.userId) :=
  ⟨by decide, fun s ty limit =>
    ⟨generateLeaderboard_length s ty limit, generateLeaderboard_sorted s ty limit,
     generateLeaderboard_rank s ty limit, generateLeaderboard_points s ty limit⟩⟩

/-- Witness for C7's quantified parts at the concrete three-user ledger. -/
theorem C7_witness :
    ((generateLeaderboard exState "points" 10).get ⟨1, by decide⟩).rank = 1 + 1 ∧
    ((⟨2, "c", 75, 0⟩ : LeaderboardEntry).points = calculateTotalPoints exState "c") :=
  ⟨(C7_leaderboard.2 exState "points" 10).2.2.1 1 (by decide),
   (C7_leaderboard.2 exState "points" 10).2.2.2 ⟨2, "c", 75, 0⟩ (by decide)⟩

/-!  Frame behaviour of updateStreak on the streak records (claim C10). -/

theorem find?_userId_eq {l : List UserStreak} {u : String} {us : UserStreak}
    (hf : l.find? (fun st => st.userId == u) = some us) : (us.userId == u) = true := by
  induction l with
  | nil => simp at hf
  | cons a rest ih =>
    rw [List.find?_cons] at hf
    split at hf
    · cases hf
      assumption
    · exact ih hf

theorem updateStreak_find?_other (s : EngineState) (u t : String) (c : Bool) (d : Int)
    (v : String) (hv : v ≠ u) :
    (updateStreak s u t c d).1.userStreaks.find? (fun st => st.userId == v) =
      s.userStreaks.find? (fun st => st.userId == v) := by
  have hpq : ∀ z : UserStreak, (z.userId == u) = true → (z.userId == v) = false := by
    intro z hz
    simp only [beq_iff_eq] at hz
    exact beq_eq_false_iff_ne.mpr (by rw [hz]; exact fun hh => hv hh.symm)
  unfold updateStreak
  cases hf : s.userStreaks.find? (fun st => st.userId == u) with
  | some us =>
    simp only [hf]
    rw [find?_replaceFirst_disj _ _ _ _ (by rw [applyStreak_userId]; exact find?_userId_eq hf) hpq]
  | none =>
    simp only [hf]
    rw [find?_replaceFirst_disj _ _ _ _
      (by rw [applyStreak_userId]; simp [initializeUserStreak]) hpq]
    rw [List.find?_append]
    have hinit : ((initializeUserStreak u).userId == v) = false :=
      beq_eq_false_iff_ne.mpr (by simp [initializeUserStreak]; exact fun hh => hv hh.symm)
    simp [List.find?, hinit]

theorem updateStreak_find?_self (s : EngineState) (u t : String) (c : Bool) (d : Int)
    (us : UserStreak)
    (hf : s.userStreaks.find? (fun st => st.userId == u) = some us) :
    (updateStreak s u t c d).1.userStreaks.find? (fun st => st.userId == u) =
      some (applyStreak us t c
        (match s.dailyHabits.find? (fun log =>
          log.userId == u && log.activityType == t && log.date == (d - 1)) with
         | some ya => ya.completed
         | none => false)) := by
  unfold updateStreak
  simp only [hf]
  exact find?_replaceFirst_found _ _ us _
    (by rw [applyStreak_userId]; exact find?_userId_eq hf) hf

/-- C10: one logActivity call for (u, t) leaves every other user's streak
record untouched, and within u's record leaves the counters of every
other activity type t' — both current and longest — unchanged. -/
theorem C10_frame (s : EngineState) (u t : String) (c : Option Bool) (d : Int) :
    (∀ v, v ≠ u →
      (logActivity s u t c d).1.userStreaks.find? (fun st => st.userId == v) =
        s.userStreaks.find? (fun st => st.userId == v)) ∧
    (∀ us us', s.userStreaks.find? (fun st => st.userId == u) = some us →
      (logActivity s u t c d).1.userStreaks.find? (fun st => st.userId == u) = some us' →
      ∀ t', t' ≠ t →
        objGet us'.streaks t' = objGet us.streaks t' ∧
        objGet us'.longestStreaks t' = objGet us.longestStreaks t') := by
  by_cases hg1 : (u == "" || t == "") = true
  · constructor
    · intro v hv
      unfold logActivity
      rw [if_pos hg1]
    · intro us us' hfu hfu' t' ht'
      unfold logActivity at hfu'
      rw [if_pos hg1] at hfu'
      rw [hfu] at hfu'
      cases hfu'
      exact ⟨rfl, rfl⟩
  · have hu' : (u == "") = false := by
      cases hb : (u == "") <;> simp_all
    have ht' : (t == "") = false := by
      cases hb : (t == "") <;> simp_all
    by_cases hdup : (s.dailyHabits.find? (fun log =>
        log.userId == u && log.activityType == t && log.date == d)).isSome = true
    · rw [logActivity_dup s u t c d hu' ht' hdup]
      constructor
      · intro v hv; rfl
      · intro us us' hfu hfu' t2 ht2
        rw [hfu] at hfu'
        cases hfu'
        exact ⟨rfl, rfl⟩
    · have hnone : s.dailyHabits.find? (fun log =>
          log.userId == u && log.activityType == t && log.date == d) = none := by
        cases hfx : s.dailyHabits.find? (fun log =>
          log.userId == u && log.activityType == t && log.date == d) <;> simp_all
      rw [logActivity_ok s u t c d hu' ht' hnone]
      constructor
      · intro v hv
        show (logActivityBody s u t c d).1.userStreaks.find? (fun st => st.userId == v) = _
        rw [logActivityBody_userStreaks]
        exact updateStreak_find?_other _ u t _ d v hv
      · intro us us' hfu hfu' t2 ht2
        rw [logActivityBody_userStreaks] at hfu'
        have hfu1 : ({ s with dailyHabits := s.dailyHabits ++ [logRecord u t c d] } :
            EngineState).userStreaks.find? (fun st => st.userId == u) = some us := hfu
        rw [updateStreak_find?_self _ u t _ d us hfu1] at hfu'
        cases hfu'
        exact applyStreak_other us t _ _ t2 ht2

/-- The state for the C10 witness: two users with one log each. -/
def c10State : EngineState :=
  runAll [⟨"u", "nutrition", some true, 1⟩, ⟨"bob", "fitness", some true, 1⟩]

/-- User "u"'s streak record in `c10State`. -/
def c10Before : UserStreak :=
  { userId := "u",
    streaks := [("nutrition", .num 1), ("fitness", .num 0), ("supplements", .num 0),
                ("hydration", .num 0), ("sleep", .num 0)],
    longestStreaks := [("nutrition", .num 1), ("fitness", .num 0), ("supplements", .num 0),
                       ("hydration", .num 0), ("sleep", .num 0)] }

/-- User "u"'s streak record after a further "nutrition" log on day 2. -/
def c10After : UserStreak :=
  { userId := "u",
    streaks := [("nutrition", .num 2), ("fitness", .num 0), ("supplements", .num 0),
                ("hydration", .num 0), ("sleep", .num 0)],
    longestStreaks := [("nutrition", .num 2), ("fitness", .num 0), ("supplements", .num 0),
                       ("hydration", .num 0), ("sleep", .num 0)] }

/-- Witness for C10 at a concrete two-user state: user "bob"'s record is
untouched by "u"'s call, and within "u"'s record the "fitness" counters
are unchanged. -/
theorem C10_witness :
    ((logActivity c10State "u" "nutrition" (some true) 2).1.userStreaks.find?
        (fun st => st.userId == "bob") =
      c10State.userStreaks.find? (fun st => st.userId == "bob")) ∧
    (objGet c10After.streaks "fitness" = objGet c10Before.streaks "fitness" ∧
     objGet c10After.longestStreaks "fitness" = objGet c10Before.longestStreaks "fitness") :=
  ⟨(C10_frame c10State "u" "nutrition" (some true) 2).1 "bob" (by decide),
   (C10_frame c10State "u" "nutrition" (some true) 2).2 c10Before c10After
     (by decide) (by decide) "fitness" (by decide)⟩
